import Mathlib

/-!
Shallow embedding of the UTXO-selection / transaction-building core of the
karlsenvault repository (`src/unnamed/part_001`).

Conventions of the embedding:
* JS numbers that hold SOMPI amounts, fees and totals are modelled as `Int`
  (all arithmetic the code performs on them is integer arithmetic;
  `Math.round` and `Number((·).toFixed(8))` are the identity on integers).
* Byte buffers are modelled as `List Nat`; an out-of-range JS index read
  (`undefined`) is modelled by `List.getD _ 0`, which like `undefined` is
  never equal to the byte `1` and yields empty slices.
* `throw` is modelled by `Except.error` carrying the thrown message.
* The externally imported `addressToScriptPublicKey` (from `karlsen-util`,
  not part of the sources) is an explicit function parameter; scripts are
  kept opaque as `String`.
* The async transport memoization is modelled as a sequential step function
  on the mutable `transportState` record, with the handle produced by
  `TransportWebHID.create()` supplied as an explicit `fresh` argument.
-/

/-- `UtxoInfo` from the source: `{ prevTxId, outpointIndex, amount }`. -/
structure UtxoInfo where
  prevTxId : String
  outpointIndex : Nat
  amount : Int
deriving Repr, DecidableEq

/-- `UtxoSelectionResult` from the source:
`{ hasEnough, utxos, fee, total }`. -/
structure UtxoSelectionResult where
  hasEnough : Bool
  utxos : List UtxoInfo
  fee : Int
  total : Int
deriving Repr, DecidableEq

/-- Sum of the `amount` fields of a list of UTXOs. -/
def amountSum (l : List UtxoInfo) : Int :=
  (l.map (fun u => u.amount)).sum

/-- The ternary `feeIncluded ? amount - fee : amount` computing
`targetAmount`, shared by the loop body and the final line of
`selectUtxos`. -/
def targetAmountOf (feeIncluded : Bool) (amount fee : Int) : Int :=
  if feeIncluded then amount - fee else amount

/-- The `for (const utxo of utxosInput) { ... }` loop body of `selectUtxos`,
with the mutable locals `fee`, `total`, `selected` made explicit accumulator
arguments.  Each iteration adds `1118` to the fee, the candidate's amount to
the total, pushes the candidate, and breaks when
`total == totalSpend || (total > totalSpend && selected.length > 1)` where
`totalSpend = targetAmount + fee`. -/
def selectLoop (amount : Int) (feeIncluded : Bool) :
    List UtxoInfo → Int → Int → List UtxoInfo → Int × Int × List UtxoInfo
  | [], fee, total, selected => (fee, total, selected)
  | utxo :: rest, fee, total, selected =>
    let fee' := fee + 1118
    let total' := total + utxo.amount
    let selected' := selected ++ [utxo]
    let totalSpend := targetAmountOf feeIncluded amount fee' + fee'
    if total' = totalSpend ∨ (total' > totalSpend ∧ selected'.length > 1) then
      (fee', total', selected')
    else
      selectLoop amount feeIncluded rest fee' total' selected'

/-- `selectUtxos(amount, utxosInput, feeIncluded)` from the source.
Starts with `fee = 239 + 690`, `total = 0`, `selected = []`, runs the loop,
then returns `hasEnough = total >= targetAmount + fee` with `targetAmount`
recomputed from the final fee. -/
def selectUtxos (amount : Int) (utxosInput : List UtxoInfo)
    (feeIncluded : Bool := false) : UtxoSelectionResult :=
  let r := selectLoop amount feeIncluded utxosInput (239 + 690) 0 []
  let fee := r.1
  let total := r.2.1
  let selected := r.2.2
  let targetAmount := targetAmountOf feeIncluded amount fee
  { hasEnough := decide (total ≥ targetAmount + fee)
    utxos := selected
    fee := fee
    total := total }

example :
    selectUtxos 60000 [⟨"a", 0, 50000⟩, ⟨"b", 0, 40000⟩] false =
      { hasEnough := true
        utxos := [⟨"a", 0, 50000⟩, ⟨"b", 0, 40000⟩]
        fee := 3165
        total := 90000 } := by decide

example : (selectUtxos 1000 [⟨"t", 0, 1000⟩] false).hasEnough = false := by decide

example : (selectUtxos 0 [] true).hasEnough = true := by decide

example : selectUtxos 1000000 [⟨"t", 0, 1000⟩] false =
    { hasEnough := false, utxos := [⟨"t", 0, 1000⟩], fee := 2047, total := 1000 } := by
  decide

/-- `TransactionInput` constructor argument record from `hw-app-karlsen`,
as populated by `createTransaction`. -/
structure TransactionInput where
  value : Int
  prevTxId : String
  outpointIndex : Nat
  addressType : Int
  addressIndex : Int
deriving Repr, DecidableEq

/-- `TransactionOutput` as populated by `createTransaction`; the script
bytes produced by the external `addressToScriptPublicKey` are kept opaque. -/
structure TransactionOutput where
  value : Int
  scriptPublicKey : String
deriving Repr, DecidableEq

/-- `Transaction` as populated by `createTransaction`. -/
structure Transaction where
  version : Int
  inputs : List TransactionInput
  outputs : List TransactionOutput
  changeAddressType : Int
  changeAddressIndex : Int
deriving Repr, DecidableEq

/-- JS `derivationPath.split('/')` at the character level: splits the
character list at every `'/'`, keeping empty components (as JS does). -/
def splitSlashChars : List Char → List (List Char)
  | [] => [[]]
  | c :: cs =>
    match splitSlashChars cs with
    | [] => if c = '/' then [[], []] else [[c]]
    | h :: t => if c = '/' then [] :: h :: t else (c :: h) :: t

/-- JS `derivationPath.split('/')`. -/
def splitSlash (s : String) : List String :=
  (splitSlashChars s.data).map (fun l => String.mk l)

/-- Decimal-digit parsing of a character list, accumulator style. -/
def digitsToNat : List Char → Nat → Option Nat
  | [], acc => some acc
  | c :: cs, acc =>
    if '0' ≤ c ∧ c ≤ '9' then
      digitsToNat cs (acc * 10 + (c.toNat - 48))
    else
      none

/-- JS `Number(path[i])` on the split derivation-path components, as used by
`createTransaction` (`Number(path[3])`, `Number(path[4])`): an optional sign
followed by decimal digits.  Other strings (JS `NaN`) are modelled as `0`;
no claim depends on them. -/
def jsNumber (s : String) : Int :=
  match s.data with
  | '-' :: rest => -(((digitsToNat rest 0).getD 0 : Nat) : Int)
  | l => (((digitsToNat l 0).getD 0 : Nat) : Int)

/-- `createTransaction(amount, sendTo, utxosInput, derivationPath,
changeAddress, feeIncluded)` from the source.  `addrToScript` stands for the
externally imported `addressToScriptPublicKey`.  The `throw new
Error('Amount too high.')` on insufficient funds is `Except.error`; on the
integer amounts of the model `Number((amount - fee).toFixed(8))` and
`Math.round(changeAmount)` are the identity. -/
def createTransaction (addrToScript : String → String) (amount : Int)
    (sendTo : String) (utxosInput : List UtxoInfo) (derivationPath : String)
    (changeAddress : String) (feeIncluded : Bool := false) :
    Except String (Transaction × Int) :=
  let r := selectUtxos amount utxosInput feeIncluded
  if ¬ r.hasEnough then
    Except.error "Amount too high."
  else
    let path := splitSlash derivationPath
    let inputs : List TransactionInput := r.utxos.map (fun utxo =>
      { value := utxo.amount
        prevTxId := utxo.prevTxId
        outpointIndex := utxo.outpointIndex
        addressType := jsNumber (path.getD 3 "")
        addressIndex := jsNumber (path.getD 4 "") })
    let targetAmount := targetAmountOf feeIncluded amount r.fee
    let sendToOutput : TransactionOutput :=
      { value := targetAmount, scriptPublicKey := addrToScript sendTo }
    let changeAmount := r.total - targetAmount - r.fee
    let outputs : List TransactionOutput :=
      if changeAmount ≥ 10000 then
        [sendToOutput,
         { value := changeAmount, scriptPublicKey := addrToScript changeAddress }]
      else
        [sendToOutput]
    Except.ok ({ version := 0
                 inputs := inputs
                 outputs := outputs
                 changeAddressType := jsNumber (path.getD 3 "")
                 changeAddressIndex := jsNumber (path.getD 4 "") }, r.fee)

/-- The `changeAmount = totalUtxoAmount - targetAmount - fee` computed by
`createTransaction` in terms of the selection it performs. -/
def changeAmountOf (amount : Int) (utxosInput : List UtxoInfo)
    (feeIncluded : Bool) : Int :=
  (selectUtxos amount utxosInput feeIncluded).total
    - targetAmountOf feeIncluded amount (selectUtxos amount utxosInput feeIncluded).fee
    - (selectUtxos amount utxosInput feeIncluded).fee

/-- The record returned by `getAppAndVersion`; `name` and `version` are kept
as raw byte lists (the ascii decode of the source does not change the
parsed layout). -/
structure AppAndVersion where
  name : List Nat
  version : List Nat
  flags : List Nat
deriving Repr, DecidableEq

/-- `getAppAndVersion` response parsing from the source: reads the format
byte, throws `'getAppAndVersion: format not supported'` when it is not `1`,
then reads `nameLen, name, versionLen, version, flagsLen, flags` in order.
Out-of-range reads (JS `undefined`) are modelled by the default `0`, and
`slice` past the end is clamped, as in JS. -/
def getAppAndVersion (r : List Nat) : Except String AppAndVersion :=
  let format := r.getD 0 0
  if format ≠ 1 then
    Except.error "getAppAndVersion: format not supported"
  else
    let nameLength := r.getD 1 0
    let name := (r.drop 2).take nameLength
    let i := 2 + nameLength
    let versionLength := r.getD i 0
    let version := (r.drop (i + 1)).take versionLength
    let j := i + 1 + versionLength
    let flagLength := r.getD j 0
    let flags := (r.drop (j + 1)).take flagLength
    Except.ok { name := name, version := version, flags := flags }

/-- The module-level mutable `transportState` record
(`{ transport, initPromise, type }`).  Transport handles (and resolved
`initPromise` values) are identified by natural numbers; `null` is `none`. -/
structure TransportState where
  transport : Option Nat
  initPromise : Option Nat
  ttype : Option String
deriving Repr, DecidableEq

/-- The initial `transportState` (all fields `null`). -/
def initialTransportState : TransportState :=
  { transport := none, initPromise := none, ttype := none }

/-- One completed `initTransport(type)` call as a sequential step on
`transportState`: if the stored type matches and a transport exists, return
it; else if an `initPromise` is stored, return its (awaited) handle; else
perform the underlying `TransportWebHID.create()` — whose resulting handle
is the explicit `fresh` argument — store it in `initPromise`, `transport`
and `type`, and return it.  Returns the new state and the returned handle. -/
def initTransport (s : TransportState) (ttype : String) (fresh : Nat) :
    TransportState × Nat :=
  if s.ttype = some ttype ∧ s.transport.isSome then
    (s, s.transport.getD 0)
  else
    match s.initPromise with
    | some p => (s, p)
    | none =>
      ({ transport := some fresh, initPromise := some fresh
         ttype := some ttype }, fresh)

example :
    createTransaction (fun s => s) 1000 "dest" [⟨"t", 0, 100000⟩]
      "m/44/0/7/9" "chg" false =
    Except.ok
      ({ version := 0
         inputs := [⟨100000, "t", 0, 7, 9⟩]
         outputs := [⟨1000, "dest"⟩, ⟨96953, "chg"⟩]
         changeAddressType := 7
         changeAddressIndex := 9 }, 2047) := by rfl

example :
    getAppAndVersion ([1, 3, 65, 66, 67, 2, 49, 50, 1, 255] : List Nat) =
      Except.ok { name := [65, 66, 67], version := [49, 50], flags := [255] } := by
  rfl

example :
    initTransport initialTransportState "usb" 5 =
      ({ transport := some 5, initPromise := some 5, ttype := some "usb" }, 5) := by
  decide

example :
    initTransport { transport := some 5, initPromise := some 5, ttype := some "usb" }
      "bluetooth" 9 =
    ({ transport := some 5, initPromise := some 5, ttype := some "usb" }, 5) := by
  decide

/-! ### Loop invariants of `selectLoop` -/

lemma selectLoop_fee (a : Int) (fi : Bool) (l : List UtxoInfo)
    (fee total : Int) (sel : List UtxoInfo) :
    (selectLoop a fi l fee total sel).1 + 1118 * (sel.length : Int)
      = fee + 1118 * ((selectLoop a fi l fee total sel).2.2.length : Int) := by
  induction l generalizing fee total sel with
  | nil => simp [selectLoop]
  | cons u rest ih =>
    simp only [selectLoop]
    split
    · simp only [List.length_append, List.length_cons, List.length_nil]
      push_cast
      ring
    · have h := ih (fee + 1118) (total + u.amount) (sel ++ [u])
      simp only [List.length_append, List.length_cons, List.length_nil] at h
      push_cast at h
      linarith

lemma selectLoop_total (a : Int) (fi : Bool) (l : List UtxoInfo)
    (fee total : Int) (sel : List UtxoInfo) :
    (selectLoop a fi l fee total sel).2.1 + amountSum sel
      = total + amountSum (selectLoop a fi l fee total sel).2.2 := by
  induction l generalizing fee total sel with
  | nil => simp [selectLoop]
  | cons u rest ih =>
    simp only [selectLoop]
    split
    · simp only [amountSum, List.map_append, List.sum_append, List.map_cons,
        List.map_nil, List.sum_cons, List.sum_nil]
      ring
    · have h := ih (fee + 1118) (total + u.amount) (sel ++ [u])
      simp only [amountSum, List.map_append, List.sum_append, List.map_cons,
        List.map_nil, List.sum_cons, List.sum_nil] at h
      simp only [amountSum]
      linarith

lemma selectLoop_sel (a : Int) (fi : Bool) (l : List UtxoInfo)
    (fee total : Int) (sel : List UtxoInfo) :
    ∃ k, k ≤ l.length ∧
      (selectLoop a fi l fee total sel).2.2 = sel ++ l.take k := by
  induction l generalizing fee total sel with
  | nil => exact ⟨0, by simp [selectLoop]⟩
  | cons u rest ih =>
    simp only [selectLoop]
    split
    · exact ⟨1, by simp, by simp⟩
    · obtain ⟨k, hk, hsel⟩ := ih (fee + 1118) (total + u.amount) (sel ++ [u])
      exact ⟨k + 1, by simp [Nat.succ_le_succ hk], by simp [hsel]⟩

lemma selectLoop_enough_of_not_feeIncluded (a : Int) (l : List UtxoInfo)
    (fee total : Int) (sel : List UtxoInfo)
    (h : a + fee + 1118 * (l.length : Int) ≤ total + amountSum l) :
    a + (selectLoop a false l fee total sel).1
      ≤ (selectLoop a false l fee total sel).2.1 := by
  induction l generalizing fee total sel with
  | nil =>
    simp only [selectLoop, List.length_nil, amountSum, List.map_nil,
      List.sum_nil] at h ⊢
    linarith
  | cons u rest ih =>
    simp only [selectLoop]
    split
    · next hb =>
      simp only [targetAmountOf, if_neg (Bool.false_ne_true)] at hb
      rcases hb with hb | ⟨hb, _⟩ <;> simp <;> linarith
    · apply ih
      simp only [List.length_cons, amountSum, List.map_cons, List.sum_cons] at h
      simp only [amountSum]
      push_cast at h
      linarith

lemma selectLoop_enough_of_feeIncluded (a : Int) (l : List UtxoInfo)
    (fee total : Int) (sel : List UtxoInfo)
    (h : a ≤ total + amountSum l) :
    a ≤ (selectLoop a true l fee total sel).2.1 := by
  induction l generalizing fee total sel with
  | nil =>
    simp only [selectLoop, amountSum, List.map_nil, List.sum_nil] at h ⊢
    linarith
  | cons u rest ih =>
    simp only [selectLoop]
    split
    · next hb =>
      simp [targetAmountOf] at hb
      rcases hb with hb | ⟨hb, _⟩ <;> simp <;> linarith
    · apply ih
      simp only [amountSum, List.map_cons, List.sum_cons] at h
      simp only [amountSum]
      linarith

/-! ### Claim theorems -/

/-- C1 (counterexample): on `selectUtxos(60000, [{amount:50000},
{amount:40000}], false)` the final fee is not `2165` as the claim states
(the code computes `239 + 690 + 2·1118 = 3165`). -/
theorem scenarioA_fee_not_2165 :
    ¬ (selectUtxos 60000 [⟨"a", 0, 50000⟩, ⟨"b", 0, 40000⟩] false).fee = 2165 := by
  decide

/-- C1 (amended): for `selectUtxos(60000, [{amount:50000},{amount:40000}],
false)` the running fee is `2047` after consuming the first candidate (with
total `50000 < 60000 + 2047`, so iteration continues), the fee is `3165`
after consuming the second (with total `90000 ≥ 60000 + 3165` and more than
one output selected, so iteration stops), and the result has
`hasEnough = true`, exactly `2` selected outputs, and fee `3165`. -/
theorem scenarioA_trace :
    selectLoop 60000 false [⟨"a", 0, 50000⟩, ⟨"b", 0, 40000⟩] (239 + 690) 0 []
        = selectLoop 60000 false [⟨"b", 0, 40000⟩] 2047 50000 [⟨"a", 0, 50000⟩] ∧
    (50000 : Int) < 60000 + 2047 ∧
    selectLoop 60000 false [⟨"b", 0, 40000⟩] 2047 50000 [⟨"a", 0, 50000⟩]
        = (3165, 90000, [⟨"a", 0, 50000⟩, ⟨"b", 0, 40000⟩]) ∧
    (90000 : Int) ≥ 60000 + 3165 ∧
    selectUtxos 60000 [⟨"a", 0, 50000⟩, ⟨"b", 0, 40000⟩] false
        = { hasEnough := true
            utxos := [⟨"a", 0, 50000⟩, ⟨"b", 0, 40000⟩]
            fee := 3165
            total := 90000 } := by
  refine ⟨by decide, by decide, by decide, by decide, by decide⟩

/-- C2: for every call to `selectUtxos` the returned fee equals
`239 + 690 + 1118·k` where `k` is the number of selected outputs, and hence
the fee is strictly increasing in the number of selected outputs. -/
theorem selectUtxos_fee_formula (a : Int) (l : List UtxoInfo) (fi : Bool) :
    (selectUtxos a l fi).fee
        = 239 + 690 + 1118 * ((selectUtxos a l fi).utxos.length : Int) ∧
    ∀ (a2 : Int) (l2 : List UtxoInfo) (fi2 : Bool),
      (selectUtxos a l fi).utxos.length < (selectUtxos a2 l2 fi2).utxos.length →
      (selectUtxos a l fi).fee < (selectUtxos a2 l2 fi2).fee := by
  have key : ∀ (a : Int) (l : List UtxoInfo) (fi : Bool),
      (selectUtxos a l fi).fee
        = 239 + 690 + 1118 * ((selectUtxos a l fi).utxos.length : Int) := by
    intro a l fi
    have h := selectLoop_fee a fi l (239 + 690) 0 []
    simp only [List.length_nil, Nat.cast_zero, mul_zero, add_zero] at h
    simpa [selectUtxos] using h
  refine ⟨key a l fi, ?_⟩
  intro a2 l2 fi2 hlen
  have h1 := key a l fi
  have h2 := key a2 l2 fi2
  have hc : ((selectUtxos a l fi).utxos.length : Int)
      < ((selectUtxos a2 l2 fi2).utxos.length : Int) := by exact_mod_cast hlen
  linarith

/-- C2 (witness): the fee formula at a concrete call, and strict growth of
the fee between a call selecting no output and one selecting one output. -/
theorem selectUtxos_fee_formula_witness :
    (selectUtxos 0 [] false).fee
        = 239 + 690 + 1118 * (((selectUtxos 0 [] false).utxos.length : Int)) ∧
    (selectUtxos 0 [] false).fee < (selectUtxos 0 [⟨"t", 0, 5⟩] false).fee :=
  ⟨(selectUtxos_fee_formula 0 [] false).1,
   (selectUtxos_fee_formula 0 [] false).2 0 [⟨"t", 0, 5⟩] false (by decide)⟩

/-- C3 (counterexample): a descending-sorted candidate list and a target
equal to the sum of all amounts on which `selectUtxos` reports
`hasEnough = false` (the claim ignores the fee). -/
theorem selectUtxos_sufficientFunds_cex :
    List.Chain' (fun x y => y.amount ≤ x.amount) [(⟨"t", 0, 1000⟩ : UtxoInfo)] ∧
    (1000 : Int) ≤ amountSum [⟨"t", 0, 1000⟩] ∧
    (selectUtxos 1000 [⟨"t", 0, 1000⟩] false).hasEnough = false :=
  ⟨by simp, by decide, by decide⟩

/-- C3 (amended): for every descending-sorted candidate list,
`selectUtxos` reports `hasEnough = true` provided the target amount plus
the final fee `239 + 690 + 1118·n` (for `n` candidates) is at most the sum
of all amounts when `feeIncluded = false`; when `feeIncluded = true` the
original bound (target ≤ sum of all amounts) suffices. -/
theorem selectUtxos_sufficientFunds (a : Int) (l : List UtxoInfo) (fi : Bool)
    (_hsorted : List.Chain' (fun x y => y.amount ≤ x.amount) l)
    (htrue : fi = true → a ≤ amountSum l)
    (hfalse : fi = false →
      a + (239 + 690) + 1118 * (l.length : Int) ≤ amountSum l) :
    (selectUtxos a l fi).hasEnough = true := by
  cases fi with
  | true =>
    have h := selectLoop_enough_of_feeIncluded a l (239 + 690) 0 []
      (by simpa using htrue rfl)
    simp only [selectUtxos, targetAmountOf, if_pos, decide_eq_true_eq, ge_iff_le]
    simp only [sub_add_cancel]
    exact h
  | false =>
    have h := selectLoop_enough_of_not_feeIncluded a l (239 + 690) 0 []
      (by simpa using hfalse rfl)
    simp only [selectUtxos, targetAmountOf, decide_eq_true_eq, ge_iff_le]
    simpa using h

/-- C3 (witness): a concrete sorted list and target meeting the amended
bound, on which `selectUtxos` reports `hasEnough = true`. -/
theorem selectUtxos_sufficientFunds_witness :
    (selectUtxos 1000 [⟨"t", 0, 100000⟩] false).hasEnough = true :=
  selectUtxos_sufficientFunds 1000 [⟨"t", 0, 100000⟩] false
    (by simp) (by decide) (by decide)

/-- C4: for every call to `selectUtxos`, the returned total equals the sum
of the amounts of the returned selected outputs. -/
theorem selectUtxos_total_eq (a : Int) (l : List UtxoInfo) (fi : Bool) :
    (selectUtxos a l fi).total = amountSum (selectUtxos a l fi).utxos := by
  have h := selectLoop_total a fi l (239 + 690) 0 []
  simp only [amountSum, List.map_nil, List.sum_nil, add_zero, zero_add] at h
  simpa [selectUtxos, amountSum] using h

/-- C5 (counterexample): with target `0`, `feeIncluded = true` and an empty
candidate list, `selectUtxos` returns `hasEnough = true` (the target minus
the fee plus the fee is `0 ≤ 0`), refuting the claim for every target. -/
theorem selectUtxos_empty_cex : (selectUtxos 0 [] true).hasEnough = true := by
  decide

/-- C5 (amended): for every positive target amount and every `feeIncluded`
flag, `selectUtxos` on an empty candidate list returns `hasEnough = false`,
an empty selected list, and the base fee `239 + 690` (with total `0`). -/
theorem selectUtxos_empty (a : Int) (fi : Bool) (ha : 1 ≤ a) :
    selectUtxos a [] fi
      = { hasEnough := false, utxos := [], fee := 239 + 690, total := 0 } := by
  simp [selectUtxos, selectLoop]
  cases fi <;> simp [targetAmountOf] <;> omega

/-- C5 (witness): the amended empty-candidates law at target `5`. -/
theorem selectUtxos_empty_witness :
    selectUtxos 5 [] true
      = { hasEnough := false, utxos := [], fee := 239 + 690, total := 0 } :=
  selectUtxos_empty 5 true (by decide)

/-- C9: for every call to `selectUtxos`, the returned selected list
consists of the first `k` candidates of the input list in their original
order, for some `k` between `0` and the input length. -/
theorem selectUtxos_selected_take (a : Int) (l : List UtxoInfo) (fi : Bool) :
    ∃ k, k ≤ l.length ∧ (selectUtxos a l fi).utxos = l.take k := by
  obtain ⟨k, hk, hsel⟩ := selectLoop_sel a fi l (239 + 690) 0 []
  refine ⟨k, hk, ?_⟩
  simpa [selectUtxos] using hsel

/-- C6: `createTransaction` throws the insufficient-funds error
`'Amount too high.'` if and only if `selectUtxos` reports
`hasEnough = false` on its inputs; in the error case no transaction value
is produced (the `Except.error` branch carries only the message), and
`selectUtxos` itself is a total function that never throws, reporting
insufficiency only through the `hasEnough` field. -/
theorem createTransaction_error_iff (f : String → String) (a : Int)
    (sendTo : String) (l : List UtxoInfo) (dp chg : String) (fi : Bool) :
    createTransaction f a sendTo l dp chg fi = Except.error "Amount too high."
      ↔ (selectUtxos a l fi).hasEnough = false := by
  by_cases h : (selectUtxos a l fi).hasEnough = true
  · simp [createTransaction, h]
  · simp only [Bool.not_eq_true] at h
    simp [createTransaction, h]

/-- C7: in every successful `createTransaction` call, if the change amount
`total - primaryOutputValue - fee` lies in `[0, 9999]` the built
transaction has exactly one output (the primary one, with no fee
adjustment), and if it is at least `10000` it has exactly two outputs, the
second having the change amount as value (`Math.round` is the identity on
these integer amounts) and the change address's script. -/
theorem createTransaction_dust (f : String → String) (a : Int)
    (sendTo : String) (l : List UtxoInfo) (dp chg : String) (fi : Bool)
    (tx : Transaction) (fee : Int)
    (h : createTransaction f a sendTo l dp chg fi = Except.ok (tx, fee)) :
    (0 ≤ changeAmountOf a l fi ∧ changeAmountOf a l fi ≤ 9999 →
      tx.outputs = [⟨targetAmountOf fi a (selectUtxos a l fi).fee, f sendTo⟩]) ∧
    (10000 ≤ changeAmountOf a l fi →
      tx.outputs = [⟨targetAmountOf fi a (selectUtxos a l fi).fee, f sendTo⟩,
                    ⟨changeAmountOf a l fi, f chg⟩]) := by
  by_cases hE : (selectUtxos a l fi).hasEnough = true
  · simp only [createTransaction, hE, not_true, if_neg, Bool.true_eq_false,
      not_false_eq_true, if_false, Except.ok.injEq, Prod.mk.injEq] at h
    obtain ⟨htx, -⟩ := h
    subst htx
    constructor
    · rintro ⟨-, hlt⟩
      have hn : ¬ ((selectUtxos a l fi).total
          - targetAmountOf fi a (selectUtxos a l fi).fee
          - (selectUtxos a l fi).fee ≥ 10000) := by
        simp only [changeAmountOf] at hlt
        omega
      dsimp only
      rw [if_neg hn]
    · intro hge
      have hp : (selectUtxos a l fi).total
          - targetAmountOf fi a (selectUtxos a l fi).fee
          - (selectUtxos a l fi).fee ≥ 10000 := by
        simp only [changeAmountOf] at hge
        exact hge
      dsimp only
      rw [if_pos hp]
      simp only [changeAmountOf]
  · have hF : (selectUtxos a l fi).hasEnough = false := by simpa using hE
    simp [createTransaction, hF] at h

/-- C7 (witness): a concrete successful call whose change amount `96953`
exceeds the dust bound, producing the primary and the change output. -/
theorem createTransaction_dust_witness :
    ({ version := 0
       inputs := [⟨100000, "t", 0, 7, 9⟩]
       outputs := [⟨1000, "dest"⟩, ⟨96953, "chg"⟩]
       changeAddressType := 7
       changeAddressIndex := 9 } : Transaction).outputs
      = [⟨targetAmountOf false 1000 (selectUtxos 1000 [⟨"t", 0, 100000⟩] false).fee,
          "dest"⟩,
         ⟨changeAmountOf 1000 [⟨"t", 0, 100000⟩] false, "chg"⟩] :=
  (createTransaction_dust (fun s => s) 1000 "dest" [⟨"t", 0, 100000⟩]
      "m/44/0/7/9" "chg" false
      { version := 0
        inputs := [⟨100000, "t", 0, 7, 9⟩]
        outputs := [⟨1000, "dest"⟩, ⟨96953, "chg"⟩]
        changeAddressType := 7
        changeAddressIndex := 9 } 2047 rfl).2 (by decide)

lemma getD_shift2 (x y : Nat) (t : List Nat) (n d : Nat) :
    (x :: y :: t).getD (n + 2) d = t.getD n d := rfl

lemma getD_after_append (l t : List Nat) (k d : Nat) :
    (l ++ t).getD (l.length + k) d = t.getD k d := by
  rw [List.getD_append_right l t d _ (Nat.le_add_right _ _),
    Nat.add_sub_cancel_left]

lemma getD_append_zero (l t : List Nat) (d : Nat) :
    (l ++ t).getD l.length d = t.getD 0 d := by
  rw [List.getD_append_right l t d _ le_rfl, Nat.sub_self]

lemma drop_shift2 (x y : Nat) (t : List Nat) (n : Nat) :
    (x :: y :: t).drop (n + 2) = t.drop n := rfl

lemma drop_one_cons (x : Nat) (t : List Nat) : (x :: t).drop 1 = t := rfl

lemma drop_after_append (l t : List Nat) (k : Nat) :
    (l ++ t).drop (l.length + k) = t.drop k := by
  induction l with
  | nil => simp
  | cons a l ih =>
    rw [List.cons_append, List.length_cons,
      show l.length + 1 + k = (l.length + k) + 1 from by omega,
      List.drop_succ_cons, ih]

/-- C8: `getAppAndVersion` fails with the format error exactly when the
leading byte of the device response is not `1`; on every response laid out
as `1, nameLen, name, versionLen, version, flagsLen, flags` it returns the
three parsed fields. -/
theorem getAppAndVersion_correct :
    (∀ r : List Nat,
      getAppAndVersion r = Except.error "getAppAndVersion: format not supported"
        ↔ r.getD 0 0 ≠ 1) ∧
    (∀ nm vs fl : List Nat,
      getAppAndVersion
          (1 :: nm.length :: (nm ++ vs.length :: (vs ++ fl.length :: fl)))
        = Except.ok { name := nm, version := vs, flags := fl }) := by
  constructor
  · intro r
    simp only [getAppAndVersion]
    split
    · simp_all
    · simp_all
  · intro nm vs fl
    set X : List Nat := vs ++ fl.length :: fl with hX
    set T : List Nat := nm ++ vs.length :: X with hT
    set r : List Nat := 1 :: nm.length :: T with hr
    simp only [getAppAndVersion]
    rw [if_neg (by rw [hr]; simp)]
    have h1 : r.getD 1 0 = nm.length := by rw [hr]; rfl
    have h2 : r.drop 2 = T := by rw [hr]; rfl
    have h3 : r.getD (2 + nm.length) 0 = vs.length := by
      rw [hr, show 2 + nm.length = nm.length + 2 from by omega, getD_shift2, hT,
        getD_append_zero, List.getD_cons_zero]
    have h4 : (r.drop (2 + nm.length + 1)).take vs.length = vs := by
      rw [hr, show 2 + nm.length + 1 = nm.length + 1 + 2 from by omega,
        drop_shift2, hT, drop_after_append, drop_one_cons, hX, List.take_left]
    have h5 : r.getD (2 + nm.length + 1 + vs.length) 0 = fl.length := by
      rw [hr, show 2 + nm.length + 1 + vs.length = (nm.length + (1 + vs.length)) + 2
            from by omega,
        getD_shift2, hT, getD_after_append,
        show 1 + vs.length = vs.length + 1 from by omega, List.getD_cons_succ, hX,
        getD_append_zero, List.getD_cons_zero]
    have h6 : (r.drop (2 + nm.length + 1 + vs.length + 1)).take fl.length = fl := by
      rw [hr, show 2 + nm.length + 1 + vs.length + 1
              = (nm.length + (1 + (vs.length + 1))) + 2 from by omega,
        drop_shift2, hT, drop_after_append,
        show 1 + (vs.length + 1) = (vs.length + 1) + 1 from by omega,
        List.drop_succ_cons, hX, drop_after_append, drop_one_cons, List.take_length]
    rw [h1, h2, hT, List.take_left, h3, h4, h5, h6]

/-- C10: once one `initTransport` call has completed successfully starting
from the pristine `transportState`, every later `initTransport` call —
whatever kind it requests and whatever handle a fresh creation would
produce — leaves `transportState` unchanged (the stored promise is never
cleared and the stored kind never updated) and returns the
originally-created handle, never triggering a second underlying creation. -/
theorem initTransport_memoized (ty0 ty : String) (h0 fresh : Nat) :
    initTransport (initTransport initialTransportState ty0 h0).1 ty fresh
      = ((initTransport initialTransportState ty0 h0).1, h0) := by
  have h1 : initTransport initialTransportState ty0 h0
      = ({ transport := some h0, initPromise := some h0, ttype := some ty0 }, h0) := by
    simp [initTransport, initialTransportState]
  rw [h1]
  by_cases hty : ty0 = ty
  · simp [initTransport, hty]
  · simp [initTransport, hty]
